import Mathlib

/-!
Verification of the filter/aggregate pipeline of `src/Rate_trends.py`.

The program loads a spreadsheet range as a table whose rows carry the
categorical columns "ZONE", "Vehicle Type Corrected" and "Month" and the
two numeric columns "Freight Value" and "TAT Value" (coerced with
`pd.to_numeric`, lines 39-40).  A sidebar selection filters rows by
zone / vehicle membership (lines 60-64) and the filtered table is grouped
by "Month" and reduced with mean / sum / max over the numeric columns
(lines 67-72).  We embed the table as a list of records over `ℚ`.
-/

namespace RateTrends

/-- One data row after numeric coercion: the three categorical columns the
pipeline reads, plus the two columns coerced by `pd.to_numeric`.  Other
spreadsheet columns are never read by the pipeline and are omitted. -/
structure Record where
  ZONE : String
  vehicleTypeCorrected : String
  month : String
  freightValue : ℚ
  tatValue : ℚ
deriving DecidableEq, Repr

/-- A table is the ordered list of its rows (`pd.DataFrame` row order). -/
abbrev Table := List Record

/-- Lines 60-64: `filtered_df = df.copy()`, then, when the zone selection is
non-empty (Python list truthiness), keep rows whose ZONE is in the
selection (`isin`), and likewise for the vehicle selection. -/
def filtered_df (df : Table) (selected_zone selected_vehicle : List String) : Table :=
  let t1 := if selected_zone.isEmpty then df
            else df.filter (fun r => selected_zone.contains r.ZONE)
  if selected_vehicle.isEmpty then t1
  else t1.filter (fun r => selected_vehicle.contains r.vehicleTypeCorrected)

/-- The aggregation method chosen by the sidebar radio button (line 53). -/
inductive AggMethod where
  | Average
  | Sum
  | Max
deriving DecidableEq, Repr

/-- One row of the aggregated table: after `groupby("Month")` with
`numeric_only=True` followed by `reset_index()`, only the Month key and the
two numeric columns survive; the non-numeric columns are dropped. -/
structure AggRow where
  month : String
  freightValue : ℚ
  tatValue : ℚ
deriving DecidableEq, Repr

/-- The rows of `t` belonging to the Month group `m`. -/
def monthGroup (t : Table) (m : String) : Table :=
  t.filter (fun r => r.month == m)

/-- Maximum of a list of rationals, as `DataFrame.max` computes it on a
non-empty column (the `[]` case never arises for a group). -/
def listMax : List ℚ → ℚ
  | [] => 0
  | x :: xs => xs.foldl max x

/-- The three reducers of lines 67-72: `mean`, `sum`, `max`, applied to one
numeric column of one group. -/
def reduceBy : AggMethod → List ℚ → ℚ
  | .Average, xs => xs.sum / (xs.length : ℚ)
  | .Sum,     xs => xs.sum
  | .Max,     xs => listMax xs

/-- The Month column of `t`, with multiplicity. -/
def monthsOf (t : Table) : List String :=
  t.map Record.month

/-- The distinct Month values of `t` in ascending order: pandas
`groupby("Month")` sorts the group keys (default `sort=True`), and for
string labels the order is the lexicographic one. -/
def sortedMonths (t : Table) : List String :=
  List.insertionSort (· ≤ ·) (monthsOf t).dedup

/-- Lines 67-72: group the filtered table by "Month", reduce each numeric
column with the selected method, `reset_index()` to put Month back as a
column. -/
def agg_df (method : AggMethod) (t : Table) : List AggRow :=
  (sortedMonths t).map (fun m =>
    { month := m
      freightValue := reduceBy method ((monthGroup t m).map Record.freightValue)
      tatValue := reduceBy method ((monthGroup t m).map Record.tatValue) })

/-! ### Table Loader (lines 28 and 39-40)

`pd.DataFrame(rows[1:], columns=rows[0])` keys the cells by the header row,
and `pd.to_numeric` coerces the "Freight Value" and "TAT Value" columns,
raising on any cell that is not a decimal numeral.  A missing header raises
when the column is first accessed.  The spec calls every such failure
`DataFormatError`. -/

/-- The loader's failure cases (`DataFormatError` of the spec): a required
header is absent, or a cell of a numeric column does not parse. -/
inductive DataFormatError where
  | missingHeader (col : String)
  | nonNumericCell (col : String) (cell : String)
deriving DecidableEq, Repr

/-- Numeric value of a digit character. -/
def digitVal (c : Char) : Nat :=
  c.toNat - 48

/-- The natural number denoted by a digit string. -/
def natOfDigits (cs : List Char) : Nat :=
  cs.foldl (fun n c => 10 * n + digitVal c) 0

/-- Split a character list at the first decimal point, if any. -/
def splitAtDot : List Char → List Char × Option (List Char)
  | [] => ([], none)
  | c :: rest =>
      if c = '.' then ([], some rest)
      else
        let p := splitAtDot rest
        (c :: p.1, p.2)

/-- The non-negative decimal numerals: an integer numeral, or a decimal
numeral with one point and digits on at least one side of it. -/
def parseUnsigned (cs : List Char) : Option ℚ :=
  match splitAtDot cs with
  | (ip, none) =>
      if ip ≠ [] ∧ ip.all Char.isDigit then
        some (natOfDigits ip : ℚ)
      else none
  | (ip, some fp) =>
      if (ip ≠ [] ∨ fp ≠ []) ∧ ip.all Char.isDigit ∧ fp.all Char.isDigit then
        some ((natOfDigits ip : ℚ) + (natOfDigits fp : ℚ) / (10 : ℚ) ^ fp.length)
      else none

/-- Standard decimal parsing, as `pd.to_numeric` applies it to one cell:
an optional sign, then a decimal numeral; anything else (for example "abc"
or the empty cell) fails. -/
def parseNumber (s : String) : Option ℚ :=
  match s.data with
  | '-' :: rest => (parseUnsigned rest).map (fun q => -q)
  | '+' :: rest => parseUnsigned rest
  | body => parseUnsigned body

/-- Index of a named column in the header row. -/
def colIdx (header : List String) (name : String) : Option Nat :=
  header.findIdx? (· == name)

/-- The cell of a data row at a column index (absent cells read as empty). -/
def cellAt (row : List String) (i : Nat) : String :=
  row.getD i ""

/-- `pd.to_numeric` over one column: parse the cell of every data row,
failing on the first cell that is not numeric. -/
def parseColumn (col : String) (idx : Nat) :
    List (List String) → Except DataFormatError (List ℚ)
  | [] => .ok []
  | row :: rest =>
      match parseNumber (cellAt row idx) with
      | none => .error (.nonNumericCell col (cellAt row idx))
      | some q => (parseColumn col idx rest).map (fun qs => q :: qs)

/-- Assemble the records from the categorical cells and the two coerced
numeric columns. -/
def mkRecords (zi vi mi : Nat) : List ℚ → List ℚ → List (List String) → Table
  | f :: fs, t :: ts, row :: rows =>
      { ZONE := cellAt row zi
        vehicleTypeCorrected := cellAt row vi
        month := cellAt row mi
        freightValue := f
        tatValue := t } :: mkRecords zi vi mi fs ts rows
  | _, _, _ => []

/-- The Table Loader: interpret the first row of the raw 2D array as
headers (line 28), coerce "Freight Value" then "TAT Value" to numbers
(lines 39-40), and require the three categorical headers the pipeline
reads.  Any violation yields a `DataFormatError` and no table. -/
def load_table (raw : List (List String)) : Except DataFormatError Table :=
  match raw with
  | [] => .error (.missingHeader "Freight Value")
  | header :: dataRows =>
    match colIdx header "Freight Value" with
    | none => .error (.missingHeader "Freight Value")
    | some fi =>
      match parseColumn "Freight Value" fi dataRows with
      | .error e => .error e
      | .ok freights =>
        match colIdx header "TAT Value" with
        | none => .error (.missingHeader "TAT Value")
        | some ti =>
          match parseColumn "TAT Value" ti dataRows with
          | .error e => .error e
          | .ok tats =>
            match colIdx header "ZONE" with
            | none => .error (.missingHeader "ZONE")
            | some zi =>
              match colIdx header "Vehicle Type Corrected" with
              | none => .error (.missingHeader "Vehicle Type Corrected")
              | some vi =>
                match colIdx header "Month" with
                | none => .error (.missingHeader "Month")
                | some mi => .ok (mkRecords zi vi mi freights tats dataRows)

/-! ### Theorems about the Filter Engine -/

/-- Claim C1: a row appears in the output of the filter step iff it is a
row of the input table, its ZONE value passes the zone selection (empty
selection matches everything), and its Vehicle Type Corrected value passes
the vehicle selection; with both selections empty every row passes. -/
theorem filtered_df_mem_iff (df : Table) (z v : List String) (r : Record) :
    r ∈ filtered_df df z v ↔
      r ∈ df ∧ (z = [] ∨ r.ZONE ∈ z) ∧ (v = [] ∨ r.vehicleTypeCorrected ∈ v) := by
  by_cases hz : z = [] <;> by_cases hv : v = []
  all_goals (simp [filtered_df, hz, hv, List.mem_filter]; try tauto)

/-- Claim C5: filtering with both selection sets empty returns the table
unchanged (same rows, same order). -/
theorem filtered_df_empty_selections (df : Table) : filtered_df df [] [] = df := rfl

/-- Claim C6: applying the filter a second time with the same selections to
an already-filtered table yields the identical table. -/
theorem filtered_df_idempotent (df : Table) (z v : List String) :
    filtered_df (filtered_df df z v) z v = filtered_df df z v := by
  by_cases hz : z.isEmpty <;> by_cases hv : v.isEmpty <;>
    simp only [filtered_df, hz, hv, if_true, if_false, Bool.false_eq_true, ite_true, ite_false]
  · exact List.filter_eq_self.mpr fun a ha => by simpa using List.of_mem_filter ha
  · exact List.filter_eq_self.mpr fun a ha => by simpa using List.of_mem_filter ha
  · have h1 : ((df.filter (fun r => z.contains r.ZONE)).filter
        (fun r => v.contains r.vehicleTypeCorrected)).filter
        (fun r => z.contains r.ZONE) =
        (df.filter (fun r => z.contains r.ZONE)).filter
        (fun r => v.contains r.vehicleTypeCorrected) :=
      List.filter_eq_self.mpr fun a ha => by
        simpa using List.of_mem_filter (List.mem_of_mem_filter ha)
    rw [h1]
    exact List.filter_eq_self.mpr fun a ha => by simpa using List.of_mem_filter ha

/-- Claim C9: the filter step is a total pure function (it is a Lean
function into `Table`, with no error type) and its output is an
order-preserving subsequence of the input table. -/
theorem filtered_df_sublist (df : Table) (z v : List String) :
    (filtered_df df z v).Sublist df := by
  have h1 : (if z.isEmpty then df
      else df.filter (fun r => z.contains r.ZONE)).Sublist df := by
    split
    · exact List.Sublist.refl df
    · exact List.filter_sublist df
  simp only [filtered_df]
  split
  · exact h1
  · exact (List.filter_sublist _).trans h1

/-! ### Theorems about the Aggregator -/

theorem mem_sortedMonths (t : Table) (m : String) :
    m ∈ sortedMonths t ↔ m ∈ monthsOf t := by
  simp [sortedMonths, List.mem_insertionSort, List.mem_dedup]

theorem nodup_sortedMonths (t : Table) : (sortedMonths t).Nodup :=
  (List.perm_insertionSort _ _).nodup_iff.mpr (List.nodup_dedup _)

theorem agg_df_map_month (method : AggMethod) (t : Table) :
    (agg_df method t).map AggRow.month = sortedMonths t := by
  unfold agg_df
  induction sortedMonths t with
  | nil => rfl
  | cons m ms ih => simpa using ih

theorem monthGroup_ne_nil (t : Table) (m : String) (h : m ∈ monthsOf t) :
    monthGroup t m ≠ [] := by
  obtain ⟨r, hr, hrm⟩ := List.mem_map.mp h
  have : r ∈ monthGroup t m := List.mem_filter.mpr ⟨hr, by simp [hrm]⟩
  exact List.ne_nil_of_mem this

/-- Claim C2: for every filtered table and method, the aggregated table has
one row per distinct Month value of the input (its Month column has no
duplicates and carries exactly the Month values present in the input), and
in each row every numeric column is reduced independently over that row's
Month group by the selected method.  Non-numeric columns are excluded
entirely: an `AggRow` carries only the Month key and the two numeric
columns. -/
theorem agg_df_groups (method : AggMethod) (t : Table) :
    ((agg_df method t).map AggRow.month).Nodup ∧
    (∀ m, m ∈ (agg_df method t).map AggRow.month ↔ m ∈ monthsOf t) ∧
    ∀ a ∈ agg_df method t,
      a.freightValue = reduceBy method ((monthGroup t a.month).map Record.freightValue) ∧
      a.tatValue = reduceBy method ((monthGroup t a.month).map Record.tatValue) := by
  refine ⟨?_, ?_, ?_⟩
  · rw [agg_df_map_month]
    exact nodup_sortedMonths t
  · intro m
    rw [agg_df_map_month]
    exact mem_sortedMonths t m
  · intro a ha
    obtain ⟨m, _, rfl⟩ := List.mem_map.mp ha
    exact ⟨rfl, rfl⟩

/-- A concrete row used by the witnesses below. -/
def r0 : Record :=
  { ZONE := "North", vehicleTypeCorrected := "Truck", month := "Jan",
    freightValue := 100, tatValue := 5 }

/-- A second concrete row with the same month as `r0`. -/
def r1 : Record :=
  { ZONE := "South", vehicleTypeCorrected := "Van", month := "Jan",
    freightValue := 200, tatValue := 7 }

/-- A concrete two-row table used by the witnesses below. -/
def sampleTable : Table := [r0, r1]

/-- Witness for claim C2's theorem at a concrete table and row. -/
theorem agg_df_groups_witness :
    ({ month := "Jan", freightValue := 200, tatValue := 7 } : AggRow).freightValue =
      reduceBy .Max ((monthGroup sampleTable
        ({ month := "Jan", freightValue := 200, tatValue := 7 } : AggRow).month).map
        Record.freightValue) :=
  ((agg_df_groups .Max sampleTable).2.2
    { month := "Jan", freightValue := 200, tatValue := 7 } (by decide)).1

/-- Claim C10: the rows of the aggregated output are sorted in ascending
(lexicographic) order of the Month label, and the output Month column is a
deterministic function of which distinct Month values occur, not of the
input row order. -/
theorem agg_df_month_sorted (method : AggMethod) (t : Table) :
    ((agg_df method t).map AggRow.month).Sorted (· ≤ ·) ∧
    ∀ t' : Table, (∀ m, m ∈ monthsOf t ↔ m ∈ monthsOf t') →
      (agg_df method t).map AggRow.month = (agg_df method t').map AggRow.month := by
  constructor
  · rw [agg_df_map_month]
    exact List.sorted_insertionSort _ _
  · intro t' hmem
    rw [agg_df_map_month, agg_df_map_month]
    have hperm : (monthsOf t).dedup.Perm (monthsOf t').dedup :=
      (List.perm_ext_iff_of_nodup (List.nodup_dedup _) (List.nodup_dedup _)).mpr
        (fun m => by simpa [List.mem_dedup] using hmem m)
    have h1 : (sortedMonths t).Perm (sortedMonths t') :=
      ((List.perm_insertionSort _ _).trans hperm).trans
        (List.perm_insertionSort _ _).symm
    exact List.eq_of_perm_of_sorted h1
      (List.sorted_insertionSort _ _) (List.sorted_insertionSort _ _)

/-- Witness for claim C10's theorem: two concrete tables with the same
distinct months in different row orders yield the same aggregated Month
column. -/
theorem agg_df_month_sorted_witness :
    (agg_df .Average sampleTable).map AggRow.month =
      (agg_df .Average sampleTable.reverse).map AggRow.month :=
  (agg_df_month_sorted .Average sampleTable).2 sampleTable.reverse
    (by intro m; simp [monthsOf, sampleTable]; tauto)

theorem listMax_le_append (xs : List ℚ) (y : ℚ) (h : xs ≠ []) :
    listMax xs ≤ listMax (xs ++ [y]) := by
  cases xs with
  | nil => exact absurd rfl h
  | cons x rest =>
    simp only [listMax, List.cons_append, List.foldl_append, List.foldl_cons, List.foldl_nil]
    exact le_max_left _ _

/-- Claim C7: aggregation with method Max is monotonic.  Appending one more
row to a table never decreases the aggregated Max value of that row's Month
group, for either numeric column. -/
theorem agg_df_max_monotone (t : Table) (r : Record) (a b : AggRow)
    (ha : a ∈ agg_df .Max t) (hb : b ∈ agg_df .Max (t ++ [r]))
    (ham : a.month = r.month) (hbm : b.month = r.month) :
    a.freightValue ≤ b.freightValue ∧ a.tatValue ≤ b.tatValue := by
  obtain ⟨m, hm, rfl⟩ := List.mem_map.mp ha
  obtain ⟨m2, hm2, rfl⟩ := List.mem_map.mp hb
  have hmr : m = r.month := ham
  have hm2r : m2 = r.month := hbm
  subst hmr
  subst hm2r
  have hne : monthGroup t r.month ≠ [] :=
    monthGroup_ne_nil t r.month ((mem_sortedMonths t r.month).mp hm)
  have hgroup : monthGroup (t ++ [r]) r.month = monthGroup t r.month ++ [r] := by
    simp [monthGroup, List.filter_append]
  constructor
  · show listMax ((monthGroup t r.month).map Record.freightValue) ≤
      listMax ((monthGroup (t ++ [r]) r.month).map Record.freightValue)
    rw [hgroup, List.map_append, List.map_cons, List.map_nil]
    exact listMax_le_append _ _ fun hmap => hne (List.map_eq_nil_iff.mp hmap)
  · show listMax ((monthGroup t r.month).map Record.tatValue) ≤
      listMax ((monthGroup (t ++ [r]) r.month).map Record.tatValue)
    rw [hgroup, List.map_append, List.map_cons, List.map_nil]
    exact listMax_le_append _ _ fun hmap => hne (List.map_eq_nil_iff.mp hmap)

/-- Witness for claim C7's theorem at a concrete table and appended row. -/
theorem agg_df_max_monotone_witness :
    ({ month := "Jan", freightValue := 100, tatValue := 5 } : AggRow).freightValue ≤
      ({ month := "Jan", freightValue := 200, tatValue := 7 } : AggRow).freightValue ∧
    ({ month := "Jan", freightValue := 100, tatValue := 5 } : AggRow).tatValue ≤
      ({ month := "Jan", freightValue := 200, tatValue := 7 } : AggRow).tatValue :=
  agg_df_max_monotone [r0] r1
    { month := "Jan", freightValue := 100, tatValue := 5 }
    { month := "Jan", freightValue := 200, tatValue := 7 }
    (by decide) (by decide) (by decide) (by decide)

/-- Claim C8: when some Month value occurs in exactly one row of the table,
aggregation with method Sum produces for that Month an output row whose
numeric values are that row's own values unchanged. -/
theorem agg_df_sum_singleton (t : Table) (r : Record)
    (h : monthGroup t r.month = [r]) :
    (∃ a ∈ agg_df .Sum t, a.month = r.month) ∧
    ∀ a ∈ agg_df .Sum t, a.month = r.month →
      a.freightValue = r.freightValue ∧ a.tatValue = r.tatValue := by
  have hrt : r ∈ t := by
    have hr : r ∈ monthGroup t r.month := by rw [h]; exact List.mem_singleton_self r
    exact List.mem_of_mem_filter hr
  have hsm : r.month ∈ sortedMonths t :=
    (mem_sortedMonths t _).mpr (List.mem_map.mpr ⟨r, hrt, rfl⟩)
  constructor
  · exact ⟨_, List.mem_map.mpr ⟨r.month, hsm, rfl⟩, rfl⟩
  · intro a ha ham
    obtain ⟨m, hm, rfl⟩ := List.mem_map.mp ha
    have hm' : m = r.month := ham
    subst hm'
    constructor
    · show reduceBy .Sum ((monthGroup t r.month).map Record.freightValue) = r.freightValue
      rw [h]; simp [reduceBy]
    · show reduceBy .Sum ((monthGroup t r.month).map Record.tatValue) = r.tatValue
      rw [h]; simp [reduceBy]

/-- Witness for claim C8's theorem at a concrete one-row table. -/
theorem agg_df_sum_singleton_witness :
    (∃ a ∈ agg_df .Sum [r0], a.month = r0.month) ∧
    ∀ a ∈ agg_df .Sum [r0], a.month = r0.month →
      a.freightValue = r0.freightValue ∧ a.tatValue = r0.tatValue :=
  agg_df_sum_singleton [r0] r0 (by decide)

/-! ### Theorems about the Table Loader -/

theorem colIdx_eq_none (header : List String) (name : String) (h : name ∉ header) :
    colIdx header name = none := by
  rw [colIdx, List.findIdx?_eq_none_iff]
  intro x hx
  exact beq_eq_false_iff_ne.mpr fun heq => h (heq ▸ hx)

theorem parseColumn_error (col : String) (idx : Nat) (rows : List (List String))
    (h : ∃ row ∈ rows, parseNumber (cellAt row idx) = none) :
    ∃ e, parseColumn col idx rows = .error e := by
  induction rows with
  | nil => simp at h
  | cons row rest ih =>
    by_cases hr : parseNumber (cellAt row idx) = none
    · exact ⟨.nonNumericCell col (cellAt row idx), by simp [parseColumn, hr]⟩
    · obtain ⟨q, hq⟩ := Option.ne_none_iff_exists'.mp hr
      obtain ⟨row', hmem, hnone⟩ := h
      rcases List.mem_cons.mp hmem with h1 | h2
      · exact absurd (h1 ▸ hnone) hr
      · obtain ⟨e, he⟩ := ih ⟨row', h2, hnone⟩
        exact ⟨e, by simp [parseColumn, hq, he, Except.map]⟩

/-- Claim C3: the Table Loader fails with a `DataFormatError`, producing no
table, whenever the "Freight Value" header or the "TAT Value" header is
absent, or some cell of either of those columns does not parse as a
number. -/
theorem load_table_fails (header : List String) (dataRows : List (List String))
    (h : "Freight Value" ∉ header ∨ "TAT Value" ∉ header ∨
      (∃ fi, colIdx header "Freight Value" = some fi ∧
        ∃ row ∈ dataRows, parseNumber (cellAt row fi) = none) ∨
      (∃ ti, colIdx header "TAT Value" = some ti ∧
        ∃ row ∈ dataRows, parseNumber (cellAt row ti) = none)) :
    ∃ e, load_table (header :: dataRows) = .error e := by
  cases hfi : colIdx header "Freight Value" with
  | none => exact ⟨.missingHeader "Freight Value", by simp [load_table, hfi]⟩
  | some fi =>
    cases hpf : parseColumn "Freight Value" fi dataRows with
    | error e => exact ⟨e, by simp [load_table, hfi, hpf]⟩
    | ok freights =>
      cases hti : colIdx header "TAT Value" with
      | none => exact ⟨.missingHeader "TAT Value", by simp [load_table, hfi, hpf, hti]⟩
      | some ti =>
        cases hpt : parseColumn "TAT Value" ti dataRows with
        | error e => exact ⟨e, by simp [load_table, hfi, hpf, hti, hpt]⟩
        | ok tats =>
          exfalso
          rcases h with h | h | ⟨fi', hfi', hbad⟩ | ⟨ti', hti', hbad⟩
          · rw [colIdx_eq_none header _ h] at hfi
            exact Option.noConfusion hfi
          · rw [colIdx_eq_none header _ h] at hti
            exact Option.noConfusion hti
          · have hfieq : fi' = fi := by
              rw [hfi'] at hfi
              exact Option.some.inj hfi
            obtain ⟨e, he⟩ := parseColumn_error "Freight Value" fi dataRows (hfieq ▸ hbad)
            rw [hpf] at he
            exact Except.noConfusion he
          · have htieq : ti' = ti := by
              rw [hti'] at hti
              exact Option.some.inj hti
            obtain ⟨e, he⟩ := parseColumn_error "TAT Value" ti dataRows (htieq ▸ hbad)
            rw [hpt] at he
            exact Except.noConfusion he

/-- Witness for claim C3's theorem: a non-numeric cell "abc" in the
"Freight Value" column makes the loader fail. -/
theorem load_table_fails_witness :
    ∃ e, load_table [["ZONE", "Vehicle Type Corrected", "Month",
      "Freight Value", "TAT Value"],
      ["North", "Truck", "Jan", "abc", "5"]] = .error e :=
  load_table_fails _ _
    (Or.inr (Or.inr (Or.inl ⟨3, by decide,
      ⟨["North", "Truck", "Jan", "abc", "5"], by decide, by decide⟩⟩)))

/-- Claim C4: the end-to-end example.  Loading the two-row raw array,
filtering with zone selection {"North"} and empty vehicle selection, then
aggregating with Average yields exactly the single row
(Month "Jan", Freight Value 100, TAT Value 5). -/
theorem pipeline_example :
    (load_table [["ZONE", "Vehicle Type Corrected", "Month",
        "Freight Value", "TAT Value"],
      ["North", "Truck", "Jan", "100", "5"],
      ["South", "Van", "Jan", "200", "7"]]).map
      (fun t => agg_df .Average (filtered_df t ["North"] [])) =
    .ok [{ month := "Jan", freightValue := 100, tatValue := 5 }] := by
  have hload : load_table [["ZONE", "Vehicle Type Corrected", "Month",
        "Freight Value", "TAT Value"],
      ["North", "Truck", "Jan", "100", "5"],
      ["South", "Van", "Jan", "200", "7"]] =
      .ok [{ ZONE := "North", vehicleTypeCorrected := "Truck", month := "Jan",
             freightValue := 100, tatValue := 5 },
           { ZONE := "South", vehicleTypeCorrected := "Van", month := "Jan",
             freightValue := 200, tatValue := 7 }] := rfl
  rw [hload]
  have hfilter : filtered_df
      [{ ZONE := "North", vehicleTypeCorrected := "Truck", month := "Jan",
         freightValue := 100, tatValue := 5 },
       { ZONE := "South", vehicleTypeCorrected := "Van", month := "Jan",
         freightValue := 200, tatValue := 7 }] ["North"] [] =
      [{ ZONE := "North", vehicleTypeCorrected := "Truck", month := "Jan",
         freightValue := 100, tatValue := 5 }] := rfl
  show Except.ok (agg_df .Average (filtered_df _ ["North"] [])) = _
  rw [hfilter]
  have hmonths : sortedMonths
      [{ ZONE := "North", vehicleTypeCorrected := "Truck", month := "Jan",
         freightValue := 100, tatValue := 5 }] = ["Jan"] := rfl
  simp only [agg_df, hmonths, List.map_cons, List.map_nil]
  have hgroup : monthGroup
      [{ ZONE := "North", vehicleTypeCorrected := "Truck", month := "Jan",
         freightValue := 100, tatValue := 5 }] "Jan" =
      [{ ZONE := "North", vehicleTypeCorrected := "Truck", month := "Jan",
         freightValue := 100, tatValue := 5 }] := rfl
  rw [hgroup]
  simp only [List.map_cons, List.map_nil, reduceBy]
  norm_num

end RateTrends
